import Mathlib

/-!
Verification of the Production Flow Consistency Engine of the erp-mes-app
backend, as a shallow embedding of the Python sources:

* `backend/app/services/movement_rules.py` — movement lifecycle state machine
  (`validate_status_transition`, `apply_status_timestamps`, guards);
* `backend/app/services/part_state.py` — stage graph resolver
  (`stage_prerequisites`), flow validator (`validate_stage_flow`) and the
  part state recomputer (`recompute_part_state`);
* `backend/app/routers/movements.py` — stage allocation guard
  (`_stage_allocated_qty`, `_ensure_stage_movement_allowed`) and the
  cooperation receive guard (`_cooperation_received_qty`,
  `_ensure_cooperation_receive_limit`);
* `backend/app/use_cases/movements_use_cases.py` — the initial-status
  dispatch of `create_movement_use_case`.

Database rows become lists of records, timestamps become `Option Nat`
(`none` = SQL NULL), machine integers become `Int`, and fallible code
returns `Except`.  Python's `max(x, 0)` is rendered as
`if x < 0 then 0 else x` and `str.strip().lower()` as an executable
character-level function, so every definition evaluates on concrete
inputs.  Stateful code (the recomputer mutating ORM rows) becomes an
explicit state-passing function: the same rows go in, updated rows come
out.
-/

set_option maxHeartbeats 1000000

deriving instance DecidableEq for Except

namespace ErpMes

/-! ## Movement lifecycle state machine (`movement_rules.py`) -/

/-- The seven movement statuses of `movement_rules.py`
(`pending, sent, in_transit, received, returned, cancelled, completed`). -/
inductive MvStatus where
  | pending
  | sent
  | inTransit
  | received
  | returned
  | cancelled
  | completed
deriving DecidableEq, Repr

/-- The wire name of each status, as the Python strings spell it. -/
def MvStatus.name : MvStatus → String
  | .pending => "pending"
  | .sent => "sent"
  | .inTransit => "in_transit"
  | .received => "received"
  | .returned => "returned"
  | .cancelled => "cancelled"
  | .completed => "completed"

/-- `_ALLOWED_TRANSITIONS` from `movement_rules.py`: the outgoing edges of
each status.  Terminal statuses (`received`, `returned`, `cancelled`,
`completed`) have no outgoing edges. -/
def allowedTransitions : MvStatus → List MvStatus
  | .pending => [.sent, .cancelled]
  | .sent => [.inTransit, .received, .returned, .cancelled]
  | .inTransit => [.received, .returned, .cancelled]
  | .received => []
  | .returned => []
  | .cancelled => []
  | .completed => []

/-- The error message raised by `validate_status_transition`
(`f"Invalid movement status transition: {current} -> {nxt}"`). -/
def invalidTransitionMsg (current nxt : MvStatus) : String :=
  "Invalid movement status transition: " ++ current.name ++ " -> " ++ nxt.name

/-- `validate_status_transition` from `movement_rules.py`.  A `none`
requested status keeps the current status; a self-transition is a no-op
success; otherwise the transition must be in `_ALLOWED_TRANSITIONS`. -/
def validate_status_transition (current : MvStatus) (nxt? : Option MvStatus) :
    Except String MvStatus :=
  match nxt? with
  | none => .ok current
  | some nxt =>
    if nxt = current then .ok nxt
    else if nxt ∈ allowedTransitions current then .ok nxt
    else .error (invalidTransitionMsg current nxt)

/-- `apply_status_timestamps`' four timestamp slots of a movement row
(`sent_at`, `received_at`, `returned_at`, `cancelled_at`), `none` = NULL. -/
structure MvTimestamps where
  sent_at : Option Nat
  received_at : Option Nat
  returned_at : Option Nat
  cancelled_at : Option Nat
deriving DecidableEq, Repr

/-- `apply_status_timestamps` from `movement_rules.py`: entering
`sent`/`in_transit` sets `sent_at` when it is NULL; entering `received`,
`returned` or `cancelled` sets the matching timestamp when it is NULL;
no other slot is touched. -/
def apply_status_timestamps (nxt : MvStatus) (t : MvTimestamps) (ts : Nat) :
    MvTimestamps :=
  { sent_at :=
      if t.sent_at = none ∧ (nxt = .sent ∨ nxt = .inTransit) then some ts
      else t.sent_at
    received_at :=
      if nxt = .received ∧ t.received_at = none then some ts else t.received_at
    returned_at :=
      if nxt = .returned ∧ t.returned_at = none then some ts else t.returned_at
    cancelled_at :=
      if nxt = .cancelled ∧ t.cancelled_at = none then some ts
      else t.cancelled_at }

/-! ## String normalization

Python's `s.strip().lower()`, implemented at the character level so that
it evaluates inside the kernel (the engine only ever normalizes ASCII
status strings). -/

/-- ASCII lowercasing of one character (`str.lower` on the ASCII status
strings the engine handles). -/
def lowerChar (c : Char) : Char :=
  if 'A' ≤ c ∧ c ≤ 'Z' then Char.ofNat (c.toNat + 32) else c

/-- `str.strip()`: drop leading and trailing whitespace characters. -/
def stripChars (s : List Char) : List Char :=
  ((s.dropWhile Char.isWhitespace).reverse.dropWhile Char.isWhitespace).reverse

/-- Python's `s.strip().lower()`. -/
def stripLower (s : String) : String :=
  ⟨(stripChars s.data).map lowerChar⟩

/-- `normalize_movement_status` from `movement_rules.py` on raw column
values: falsy input (`None` or the empty string) normalizes to `"pending"`,
anything else is stripped and lowercased. -/
def normalize_movement_status (status : Option String) : String :=
  match status with
  | none => "pending"
  | some s => if s = "" then "pending" else stripLower s

/-! ## Part state (`part_state.py`): data model -/

/-- `PROGRESS_STAGES` from `part_state.py`: the canonical progress-stage
set that participates in the bottleneck MIN. -/
def PROGRESS_STAGES : List String :=
  ["machining", "fitting", "heat_treatment", "galvanic", "grinding", "qc"]

/-- `INTERNAL_FACT_STAGES` from `part_state.py`. -/
def INTERNAL_FACT_STAGES : List String := ["machining", "fitting", "qc"]

/-- `EXTERNAL_MOVEMENT_STAGES` from `part_state.py`. -/
def EXTERNAL_MOVEMENT_STAGES : List String :=
  ["heat_treatment", "galvanic", "grinding"]

/-- The `StageTotals` dataclass of `part_state.py`: per-stage aggregate of
good and scrap quantities, event count and first/last event time. -/
structure StageTotals where
  good : Int := 0
  scrap : Int := 0
  facts_count : Nat := 0
  first_at : Option Nat := none
  last_at : Option Nat := none
deriving DecidableEq, Repr

/-- `StageTotals.processed`: `good + scrap`. -/
def StageTotals.processed (t : StageTotals) : Int := t.good + t.scrap

/-- The per-stage totals dictionary (`dict[str, StageTotals]`) as an
association list keyed by stage name. -/
abbrev TotalsMap := List (String × StageTotals)

/-- Python's `totals.get(stage, StageTotals())`: lookup with the default
(all-zero) totals for a missing key. -/
def getTotals (totals : TotalsMap) (stage : String) : StageTotals :=
  match totals.find? (fun p => p.1 = stage) with
  | some p => p.2
  | none => {}

/-- Python's builtin `min` over a non-empty sequence, as a fold; `0` on the
empty list (the source never calls `min` on an empty sequence). -/
def listMin : List Int → Int
  | [] => 0
  | x :: xs => xs.foldl min x

/-- The `Part` row fields read and written by the engine
(`qty_plan`, `qty_done`, `status`, `required_stages`, `is_cooperation`,
`cooperation_qc_status`, `cooperation_qc_checked_at` of `models.Part`). -/
structure Part where
  qty_plan : Int
  qty_done : Int
  status : String
  required_stages : List String
  is_cooperation : Bool
  cooperation_qc_status : Option String
  cooperation_qc_checked_at : Option Nat
deriving DecidableEq, Repr

/-- A `PartStageStatus` row: the per-(part, stage) derived status record. -/
structure PartStageStatus where
  stage : String
  status : String
  operator_id : Option Nat
  started_at : Option Nat
  completed_at : Option Nat
deriving DecidableEq, Repr

/-- `stage_prerequisites` from `part_state.py`: the immediate prerequisite
stages that bound the available input quantity of `stage`, driven by the
part type (in-house vs cooperation) and the configured `required_stages`. -/
def stage_prerequisites (part : Part) (stage : String) : List String :=
  let req := part.required_stages
  if part.is_cooperation then
    if stage = "heat_treatment" then []
    else if stage = "galvanic" then
      if req.contains "heat_treatment" then ["heat_treatment"] else []
    else if stage = "grinding" then
      if req.contains "galvanic" then ["galvanic"]
      else if req.contains "heat_treatment" then ["heat_treatment"]
      else []
    else if stage = "qc" then
      ["heat_treatment", "galvanic", "grinding"].filter req.contains
    else []
  else
    if stage = "fitting" then
      if req.contains "machining" then ["machining"] else []
    else if stage = "heat_treatment" then
      if req.contains "fitting" then ["fitting"] else []
    else if stage = "galvanic" then
      if req.contains "heat_treatment" then ["heat_treatment"]
      else if req.contains "fitting" then ["fitting"]
      else []
    else if stage = "grinding" then
      if req.contains "galvanic" then ["galvanic"]
      else if req.contains "heat_treatment" then ["heat_treatment"]
      else if req.contains "fitting" then ["fitting"]
      else []
    else if stage = "qc" then
      (if req.contains "fitting" then ["fitting"] else []) ++
        ["heat_treatment", "galvanic", "grinding"].filter req.contains
    else []

/-! ## Flow invariant validator (`validate_stage_flow`) -/

/-- The data carried by the violation message of `validate_stage_flow`
(the message string names the offending stage, the processed amount, the
prerequisite stages and the available amount). -/
structure FlowViolation where
  stage : String
  processed : Int
  prereq : List String
  available : Int
deriving DecidableEq, Repr

/-- The loop body of `validate_stage_flow`, iterating over the part's
required stages: skip `machining`/`logistics` and stages with no
prerequisites; flag the first stage whose processed total exceeds the MIN
of its prerequisites' good totals. -/
def validateFlowGo (part : Part) (totals : TotalsMap) :
    List String → Option FlowViolation
  | [] => none
  | stage :: rest =>
    if stage = "machining" ∨ stage = "logistics" then
      validateFlowGo part totals rest
    else
      let prereq := stage_prerequisites part stage
      if prereq = [] then validateFlowGo part totals rest
      else
        let available := listMin (prereq.map fun s => (getTotals totals s).good)
        let processed := (getTotals totals stage).processed
        if available < processed then
          some ⟨stage, processed, prereq, available⟩
        else validateFlowGo part totals rest

/-- `validate_stage_flow` from `part_state.py`: check that no downstream
stage processed more than its prerequisites made available; pure, returns
the first violation found or `none`. -/
def validate_stage_flow (part : Part) (totals : TotalsMap) :
    Option FlowViolation :=
  validateFlowGo part totals part.required_stages

/-! ## Part state recomputer (`recompute_part_state`) -/

/-- Python's `(part.cooperation_qc_status or "pending").strip().lower()`:
`None` and the empty string are falsy and default to `"pending"`. -/
def normQcStatus (s? : Option String) : String :=
  match s? with
  | none => "pending"
  | some s => if s = "" then "pending" else stripLower s

/-- The set-once pattern of the recompute loop
(`if field is None: field = value or func.now()`): fill an unset timestamp,
keep a set one. -/
def fillIfNone (d : Nat) (cur : Option Nat) : Option Nat :=
  if cur = none then some d else cur

/-- The operator-attribution step of the recompute loop: when the row has
no operator and the stage is fact-recorded, take the most recent non-null
operator of that stage's facts (`lastOp stage`), if any. -/
def attributedNext (lastOp : String → Option Nat) (stage : String)
    (op : Option Nat) : Option Nat :=
  if op = none ∧ INTERNAL_FACT_STAGES.contains stage then
    match lastOp stage with
    | some o => some o
    | none => op
  else op

/-- Operator attribution followed by the unconditional clearing for
external movement stages
(`if stage in EXTERNAL_MOVEMENT_STAGES: operator_id = None`). -/
def opIdNext (lastOp : String → Option Nat) (stage : String)
    (op : Option Nat) : Option Nat :=
  if EXTERNAL_MOVEMENT_STAGES.contains stage then none
  else attributedNext lastOp stage op

/-- The loop body of `recompute_part_state` over one `PartStageStatus` row:
derive the row's status, `started_at`/`completed_at` and operator
attribution from the stage's totals.  `lastOp stage` stands for the
`StageFact.operator_id` query (the most recent non-null operator of that
stage's facts); `now` stands for `func.now()`. -/
def updateStage (part : Part) (totals : TotalsMap)
    (lastOp : String → Option Nat) (now : Nat) (ss : PartStageStatus) :
    PartStageStatus :=
  if ss.status = "skipped" then ss
  else
    let t := getTotals totals ss.stage
    let hasActivity := 0 < t.facts_count ∨ 0 < t.processed
    if ss.stage = "qc" ∧ part.is_cooperation = true then
      let qc := normQcStatus part.cooperation_qc_status
      if qc = "pending" ∧ ¬hasActivity then
        { ss with status := "pending", started_at := none,
                  completed_at := none, operator_id := none }
      else
        let started := fillIfNone (t.first_at.getD now) ss.started_at
        if qc = "accepted" then
          { ss with status := "done", started_at := started,
                    operator_id := none,
                    completed_at :=
                      some ((part.cooperation_qc_checked_at.orElse
                              fun _ => t.last_at).getD now) }
        else if qc = "rejected" then
          { ss with status := "in_progress", started_at := started,
                    operator_id := none, completed_at := none }
        else if part.qty_plan ≤ t.good then
          { ss with status := "done", started_at := started,
                    operator_id := none,
                    completed_at :=
                      fillIfNone (t.last_at.getD now) ss.completed_at }
        else
          { ss with status := "in_progress", started_at := started,
                    operator_id := none, completed_at := none }
    else if ¬hasActivity then
      { ss with status := "pending", started_at := none,
                completed_at := none, operator_id := none }
    else
      let started := fillIfNone (t.first_at.getD now) ss.started_at
      let opId := opIdNext lastOp ss.stage ss.operator_id
      if ss.stage = "logistics" then
        { ss with status := "in_progress", started_at := started,
                  operator_id := opId, completed_at := none }
      else if part.qty_plan ≤ t.good then
        { ss with status := "done", started_at := started,
                  operator_id := opId,
                  completed_at :=
                    fillIfNone (t.last_at.getD now) ss.completed_at }
      else
        { ss with status := "in_progress", started_at := started,
                  operator_id := opId, completed_at := none }

/-- The non-skipped progress stages of the stage rows: the stages over
which `recompute_part_state` takes the bottleneck MIN. -/
def progressStagesPresent (statuses : List PartStageStatus) : List String :=
  (statuses.filter fun s =>
      s.status ≠ "skipped" && PROGRESS_STAGES.contains s.stage).map (·.stage)

/-- `recompute_part_state` from `part_state.py`, as a pure state
transformer: update every stage-status row, then derive `qty_done`
(bottleneck MIN over the non-skipped progress stages, clamped at 0 by
`max(0, ready)`) and the overall part status; returns the updated part,
the updated rows and the (unchanged) totals, mirroring the source's return
of `totals`. -/
def recompute_part_state (part : Part) (statuses : List PartStageStatus)
    (totals : TotalsMap) (lastOp : String → Option Nat) (now : Nat) :
    Part × List PartStageStatus × TotalsMap :=
  let updated := statuses.map (updateStage part totals lastOp now)
  let present := progressStagesPresent updated
  let ready : Int :=
    if present = [] then 0
    else listMin (present.map fun st => (getTotals totals st).good)
  let qtyDone : Int := if ready < 0 then 0 else ready
  let factsTotal : Nat := (totals.map fun p => p.2.facts_count).sum
  let hasStarted : Bool :=
    decide (0 < factsTotal) ||
      updated.any fun s =>
        s.status ≠ "skipped" && (s.status = "in_progress" || s.status = "done")
  let newStatus :=
    if part.qty_plan ≤ qtyDone then "done"
    else if hasStarted then "in_progress"
    else "not_started"
  ({ part with qty_done := qtyDone, status := newStatus }, updated, totals)

/-! ## Movement router guards (`routers/movements.py`) -/

/-- `RECEIVED_MOVEMENT_STATUSES` (`("received", "completed")`). -/
def RECEIVED_MOVEMENT_STATUSES : List String := ["received", "completed"]

/-- `ACTIVE_MOVEMENT_STATUSES` (`{"sent", "in_transit"}`). -/
def ACTIVE_MOVEMENT_STATUSES : List String := ["sent", "in_transit"]

/-- `_movement_qty_from_row`: `coalesce(qty_received, qty_sent, quantity, 0)`. -/
def movement_qty_from_row (qty_received qty_sent quantity : Option Int) : Int :=
  ((qty_received.orElse fun _ => qty_sent).orElse fun _ => quantity).getD 0

/-- The columns of one `logistics_entries` row that the stage allocation
guard reads (`status, sent_at, qty_sent, qty_received, quantity`). -/
structure MvRow where
  status : Option String
  sent_at : Option Nat
  qty_sent : Option Int
  qty_received : Option Int
  quantity : Option Int
deriving DecidableEq, Repr

/-- One row's contribution inside `_stage_allocated_qty`'s loop: the full
delivered quantity for rows in the received-terminal set, `qty_sent` (with
legacy fallback) for active rows that already have `sent_at`, 0 otherwise. -/
def rowAllocated (r : MvRow) : Int :=
  let normalized := normalize_movement_status r.status
  if RECEIVED_MOVEMENT_STATUSES.contains normalized then
    movement_qty_from_row r.qty_received r.qty_sent r.quantity
  else if ACTIVE_MOVEMENT_STATUSES.contains normalized ∧ r.sent_at ≠ none then
    movement_qty_from_row none r.qty_sent r.quantity
  else 0

/-- `_stage_allocated_qty` from `routers/movements.py`: sum the
contributions of all movements linked to the stage (`rows`); when an
update excludes a movement, `current?` is that movement's row (`none` when
no row matches the excluded id) and its own contribution is subtracted,
clamped at 0 (`max(allocated - current_allocated, 0)`). -/
def stage_allocated_qty (rows : List MvRow) (current? : Option MvRow) : Int :=
  let allocated := (rows.map rowAllocated).sum
  match current? with
  | none => allocated
  | some c =>
    if allocated - rowAllocated c < 0 then 0 else allocated - rowAllocated c

/-- The two rejection messages of `_ensure_stage_movement_allowed`: the
non-positive-quantity rejection, and the capacity rejection whose message
names the stage, the available amount and the requested amount. -/
inductive StageGuardError where
  | qtyNotPositive
  | insufficient (stage : String) (available requested : Int)
deriving DecidableEq, Repr

/-- `remaining_qty` of `_ensure_stage_movement_allowed`:
`max(source_qty - allocated_qty, 0)`. -/
def stage_remaining_qty (source_qty : Int) (rows : List MvRow)
    (current? : Option MvRow) : Int :=
  if source_qty - stage_allocated_qty rows current? < 0 then 0
  else source_qty - stage_allocated_qty rows current?

/-- `_ensure_stage_movement_allowed` from `routers/movements.py`:
reject a non-positive requested quantity; otherwise reject when the
requested quantity exceeds `max(source_qty - allocated_qty, 0)`.
`source_qty` stands for `_stage_source_qty(db, part, stage_status)`. -/
def ensure_stage_movement_allowed (stage : String) (source_qty : Int)
    (rows : List MvRow) (current? : Option MvRow) (requested_qty : Int) :
    Except StageGuardError Unit :=
  if requested_qty ≤ 0 then .error .qtyNotPositive
  else
    let remaining := stage_remaining_qty source_qty rows current?
    if remaining < requested_qty then
      .error (.insufficient stage remaining requested_qty)
    else .ok ()

/-- The columns of one `logistics_entries` row that the cooperation receive
guard reads, plus the row id used for exclusion. -/
structure CoopRow where
  id : Nat
  stage_id : Option Nat
  status : Option String
  qty_sent : Option Int
  qty_received : Option Int
  quantity : Option Int
deriving DecidableEq, Repr

/-- `_cooperation_received_qty` from `routers/movements.py`: the sum of
`coalesce(qty_received, qty_sent, quantity, 0)` over the part's part-level
movements (`stage_id IS NULL`) whose raw status is in the received-terminal
set, excluding the movement with id `exclude?` when given. -/
def cooperation_received_qty (rows : List CoopRow) (exclude? : Option Nat) :
    Int :=
  ((rows.filter fun r =>
      r.stage_id = none &&
        (r.status = some "received" || r.status = some "completed") &&
        match exclude? with
        | none => true
        | some i => r.id ≠ i).map fun r =>
    movement_qty_from_row r.qty_received r.qty_sent r.quantity).sum

/-- The three rejections of `_ensure_cooperation_receive_limit`: missing
quantity, non-positive quantity, and receiving beyond the plan. -/
inductive CoopGuardError where
  | qtyMissing
  | qtyNotPositive
  | overPlan (remaining incoming : Int)
deriving DecidableEq, Repr

/-- `_ensure_cooperation_receive_limit` from `routers/movements.py`:
reject a missing or non-positive incoming quantity; otherwise reject when
the incoming quantity exceeds `max(qty_plan - already_received, 0)`. -/
def ensure_cooperation_receive_limit (qty_plan : Int) (rows : List CoopRow)
    (exclude? : Option Nat) (incoming? : Option Int) :
    Except CoopGuardError Unit :=
  match incoming? with
  | none => .error .qtyMissing
  | some incoming =>
    if incoming ≤ 0 then .error .qtyNotPositive
    else
      let alreadyReceived := cooperation_received_qty rows exclude?
      let remaining :=
        if qty_plan - alreadyReceived < 0 then 0 else qty_plan - alreadyReceived
      if remaining < incoming then .error (.overPlan remaining incoming)
      else .ok ()

/-! ## Movement creation (`use_cases/movements_use_cases.py`) -/

/-- `ensure_received_requires_sent` from `movement_rules.py`. -/
def ensure_received_requires_sent (sent_at : Option Nat)
    (next_status : String) : Except String Unit :=
  if normalize_movement_status (some next_status) = "received" ∧ sent_at = none
  then .error "Cannot mark movement as received without sent_at"
  else .ok ()

/-- The initial-status dispatch of `create_movement_use_case` (and of the
router's `create_movement`): resolve the requested initial status into
`(status, sent_at, received_at)`; `"sent"` stamps `sent_at` via
`initial_movement_state`, `"pending"` stamps nothing, `"received"` stamps
both timestamps with the creation time and re-checks
`ensure_received_requires_sent`; anything else is rejected. -/
def resolve_initial_state (requested : Option String) (now : Nat) :
    Except String (String × Option Nat × Option Nat) :=
  let s := normalize_movement_status requested
  if s = "sent" then .ok ("sent", some now, none)
  else if s = "pending" then .ok ("pending", none, none)
  else if s = "received" then
    match ensure_received_requires_sent (some now) "received" with
    | .error e => .error e
    | .ok _ => .ok ("received", some now, some now)
  else .error "Invalid initial movement status"

/-- The `resolved_qty_received` expression of `create_movement_use_case`:
an explicit `qty_received` wins; otherwise a movement created directly in
`received` defaults it to `qty_sent`. -/
def resolved_qty_received (status : String)
    (qty_received qty_sent : Option Int) : Option Int :=
  match qty_received with
  | some q => some q
  | none => if status = "received" then qty_sent else none

end ErpMes

namespace ErpMes

/-! ## Theorems: movement lifecycle (C3, C9) -/

/-- C3: `validate_status_transition(current, next)` returns `next` as a
no-op success whenever `next = current` (for every status, terminal ones
included); returns `next` whenever the pair is in the table
`pending -> {sent, cancelled}`, `sent -> {in_transit, received, returned,
cancelled}`, `in_transit -> {received, returned, cancelled}`; and for every
other pair returns the error naming both the current and the requested
status.  In particular a movement in `received`, `returned` or `cancelled`
never transitions to a different status. -/
theorem validate_status_transition_spec :
    ∀ current nxt : MvStatus,
      (nxt = current →
        validate_status_transition current (some nxt) = .ok nxt) ∧
      ((current = .pending ∧ (nxt = .sent ∨ nxt = .cancelled)) ∨
       (current = .sent ∧
         (nxt = .inTransit ∨ nxt = .received ∨ nxt = .returned ∨ nxt = .cancelled)) ∨
       (current = .inTransit ∧ (nxt = .received ∨ nxt = .returned ∨ nxt = .cancelled)) →
        validate_status_transition current (some nxt) = .ok nxt) ∧
      (nxt ≠ current →
        ¬((current = .pending ∧ (nxt = .sent ∨ nxt = .cancelled)) ∨
          (current = .sent ∧
            (nxt = .inTransit ∨ nxt = .received ∨ nxt = .returned ∨ nxt = .cancelled)) ∨
          (current = .inTransit ∧ (nxt = .received ∨ nxt = .returned ∨ nxt = .cancelled))) →
        validate_status_transition current (some nxt) =
          .error (invalidTransitionMsg current nxt)) ∧
      ((current = .received ∨ current = .returned ∨ current = .cancelled) →
        nxt ≠ current →
        validate_status_transition current (some nxt) =
          .error (invalidTransitionMsg current nxt)) := by
  intro current nxt
  cases current <;> cases nxt <;>
    simp [validate_status_transition, allowedTransitions]

/-- Witness for C3: instantiates the theorem at the concrete pair
`cancelled -> received`, discharging its hypotheses there. -/
theorem validate_status_transition_spec_witness :
    validate_status_transition .cancelled (some .received) =
      .error (invalidTransitionMsg .cancelled .received) :=
  (validate_status_transition_spec .cancelled .received).2.2.2
    (.inr (.inr rfl)) (by decide)

/-- C9: `apply_status_timestamps` never overwrites or clears an already-set
timestamp: each slot, once non-NULL, is returned unchanged; entering
`sent`/`in_transit` sets `sent_at` (only) when it was NULL; entering
`received`/`returned`/`cancelled` sets only the matching timestamp and only
when it was NULL; entering `pending` sets no timestamp; and every slot other
than the one matching the entered status is returned unchanged. -/
theorem apply_status_timestamps_spec :
    ∀ (nxt : MvStatus) (t : MvTimestamps) (ts : Nat),
      ((apply_status_timestamps nxt t ts).sent_at = t.sent_at ∨
        (t.sent_at = none ∧ (nxt = .sent ∨ nxt = .inTransit) ∧
          (apply_status_timestamps nxt t ts).sent_at = some ts)) ∧
      ((apply_status_timestamps nxt t ts).received_at = t.received_at ∨
        (t.received_at = none ∧ nxt = .received ∧
          (apply_status_timestamps nxt t ts).received_at = some ts)) ∧
      ((apply_status_timestamps nxt t ts).returned_at = t.returned_at ∨
        (t.returned_at = none ∧ nxt = .returned ∧
          (apply_status_timestamps nxt t ts).returned_at = some ts)) ∧
      ((apply_status_timestamps nxt t ts).cancelled_at = t.cancelled_at ∨
        (t.cancelled_at = none ∧ nxt = .cancelled ∧
          (apply_status_timestamps nxt t ts).cancelled_at = some ts)) ∧
      ((nxt = .sent ∨ nxt = .inTransit) → t.sent_at = none →
        (apply_status_timestamps nxt t ts).sent_at = some ts) ∧
      (nxt = .received → t.received_at = none →
        (apply_status_timestamps nxt t ts).received_at = some ts) ∧
      (nxt = .returned → t.returned_at = none →
        (apply_status_timestamps nxt t ts).returned_at = some ts) ∧
      (nxt = .cancelled → t.cancelled_at = none →
        (apply_status_timestamps nxt t ts).cancelled_at = some ts) ∧
      (nxt ≠ .sent → nxt ≠ .inTransit →
        (apply_status_timestamps nxt t ts).sent_at = t.sent_at) ∧
      (nxt ≠ .received →
        (apply_status_timestamps nxt t ts).received_at = t.received_at) ∧
      (nxt ≠ .returned →
        (apply_status_timestamps nxt t ts).returned_at = t.returned_at) ∧
      (nxt ≠ .cancelled →
        (apply_status_timestamps nxt t ts).cancelled_at = t.cancelled_at) ∧
      (nxt = .pending → apply_status_timestamps nxt t ts = t) := by
  intro nxt t ts
  obtain ⟨s, r, rt, c⟩ := t
  cases nxt <;> cases s <;> cases r <;> cases rt <;> cases c <;>
    simp [apply_status_timestamps]

/-- Witness for C9: entering `in_transit` with `sent_at` already set leaves
every slot unchanged, by instantiating the theorem at a concrete input. -/
theorem apply_status_timestamps_spec_witness :
    (apply_status_timestamps .inTransit ⟨some 5, none, none, none⟩ 7).sent_at =
        some 5 ∧
      (apply_status_timestamps .inTransit ⟨some 5, none, none, none⟩ 7).received_at =
        none :=
  ⟨by
    rcases (apply_status_timestamps_spec .inTransit ⟨some 5, none, none, none⟩ 7).1
      with h | ⟨h, _⟩
    · exact h
    · exact absurd h (by decide),
   (apply_status_timestamps_spec .inTransit ⟨some 5, none, none, none⟩ 7).2.2.2.2.2.2.2.2.2.1
     (by decide)⟩

/-! ## Theorems: stage allocation guard (C6) -/

/-- C6: the stage allocation guard accepts exactly when the requested
quantity is positive and at most `max(sourceQty - allocatedQty, 0)`, where
`allocatedQty` (per `stage_allocated_qty`/`rowAllocated`) sums the full
delivered quantity of rows in `{received, completed}` and the `qty_sent` of
rows in `{sent, in_transit}` with `sent_at` set, the updated movement's own
prior contribution being subtracted; a non-positive quantity is rejected
unconditionally, and the capacity rejection names the stage, the available
amount and the requested amount. -/
theorem ensure_stage_movement_allowed_spec :
    ∀ (stage : String) (source_qty : Int) (rows : List MvRow)
      (current? : Option MvRow) (requested_qty : Int),
      (ensure_stage_movement_allowed stage source_qty rows current? requested_qty
          = .ok () ↔
        0 < requested_qty ∧
          requested_qty ≤ stage_remaining_qty source_qty rows current?) ∧
      (requested_qty ≤ 0 →
        ensure_stage_movement_allowed stage source_qty rows current? requested_qty
          = .error .qtyNotPositive) ∧
      (0 < requested_qty →
        stage_remaining_qty source_qty rows current? < requested_qty →
        ensure_stage_movement_allowed stage source_qty rows current? requested_qty
          = .error (.insufficient stage
              (stage_remaining_qty source_qty rows current?) requested_qty)) := by
  intro stage src rows cur q
  unfold ensure_stage_movement_allowed
  refine ⟨?_, ?_, ?_⟩
  · split_ifs <;> simp <;> omega
  · intro h
    simp [h]
  · intro h1 h2
    rw [if_neg (by omega), if_pos h2]

/-- Witness for C6: the guard at source 100, one received row of 25 and one
active sent row of 40, requesting 36, rejects naming availability 35. -/
theorem ensure_stage_movement_allowed_spec_witness :
    ensure_stage_movement_allowed "galvanic" 100
        [⟨some "received", some 1, some 30, some 25, none⟩,
         ⟨some "sent", some 2, some 40, none, none⟩] none 36 =
      .error (.insufficient "galvanic" 35 36) := by
  have h := (ensure_stage_movement_allowed_spec "galvanic" 100
    [⟨some "received", some 1, some 30, some 25, none⟩,
     ⟨some "sent", some 2, some 40, none, none⟩] none 36).2.2
    (by decide) (by decide)
  exact h.trans (by decide)

/-! ## Theorems: cooperation receive guard (C7) -/

/-- C7: the cooperation receive guard accepts exactly when the incoming
quantity is present, positive and fits within the plan: the sum of
`coalesce(qty_received, qty_sent, quantity, 0)` over the part's other
part-level movements already in `{received, completed}` plus the incoming
quantity must not exceed `qty_plan`. -/
theorem ensure_cooperation_receive_limit_spec :
    ∀ (qty_plan : Int) (rows : List CoopRow) (exclude? : Option Nat)
      (incoming? : Option Int),
      ensure_cooperation_receive_limit qty_plan rows exclude? incoming? = .ok ()
        ↔ ∃ q, incoming? = some q ∧ 0 < q ∧
            cooperation_received_qty rows exclude? + q ≤ qty_plan := by
  intro plan rows excl inc
  cases inc with
  | none => simp [ensure_cooperation_receive_limit]
  | some q =>
    show (if q ≤ 0 then _ else _) = _ ↔ _
    split_ifs with h1 h2 <;> simp <;> omega

/-- Witness for C7: the spec's example scenario — plan 500, a part-level
movement of 300 already received, receiving 250 more is rejected. -/
theorem ensure_cooperation_receive_limit_spec_witness :
    ensure_cooperation_receive_limit 500
        [⟨1, none, some "received", some 300, none, none⟩] none (some 250) ≠
      .ok () := by
  intro h
  obtain ⟨q, hq, hpos, hle⟩ :=
    (ensure_cooperation_receive_limit_spec 500
      [⟨1, none, some "received", some 300, none, none⟩] none (some 250)).mp h
  obtain rfl : (250 : Int) = q := by injection hq
  revert hle
  decide

/-! ## Theorems: movement creation (C8, C10) -/

/-- Counterexample to C8: a create request asking for initial status
`completed` is rejected by `create_movement_use_case`'s initial-status
dispatch with "Invalid initial movement status", not accepted. -/
theorem create_completed_initial_status_rejected :
    resolve_initial_state (some "completed") 0 =
      .error "Invalid initial movement status" := by
  decide

/-- C8 as amended: `createMovement` accepts exactly `sent`, `pending` and
`received` as requested initial statuses; in particular a request for
initial status `completed` is rejected as an invalid initial status. -/
theorem resolve_initial_state_spec :
    ∀ (requested : Option String) (now : Nat),
      ((∃ r, resolve_initial_state requested now = .ok r) ↔
        normalize_movement_status requested ∈ ["sent", "pending", "received"]) ∧
      resolve_initial_state (some "completed") now =
        .error "Invalid initial movement status" := by
  intro req now
  constructor
  · unfold resolve_initial_state
    dsimp only
    split_ifs with h1 h2 h3
    · simp [h1]
    · simp [h2]
    · simp [h3, ensure_received_requires_sent]
    · simp [h1, h2, h3]
  · unfold resolve_initial_state
    have hn : normalize_movement_status (some "completed") = "completed" := by
      decide
    rw [hn]
    rfl

/-- Witness for C8 (amended): a `completed` request has no success result,
by instantiating the theorem at `requested = some "completed"`. -/
theorem resolve_initial_state_spec_witness :
    ¬∃ r, resolve_initial_state (some "completed") 42 = .ok r := by
  intro h
  have hmem := ((resolve_initial_state_spec (some "completed") 42).1).mp h
  revert hmem
  decide

/-- C10: `createMovement` accepts `received` as an initial status: the
movement is created directly in `received` with `sent_at` and `received_at`
both equal to the creation time (so `ensure_received_requires_sent` is
satisfied by construction), and `qty_received` defaults to `qty_sent` when
not supplied. -/
theorem create_received_initial_state_spec :
    ∀ (now : Nat) (qty_sent : Option Int) (q : Int),
      resolve_initial_state (some "received") now =
        .ok ("received", some now, some now) ∧
      ensure_received_requires_sent (some now) "received" = .ok () ∧
      resolved_qty_received "received" none qty_sent = qty_sent ∧
      resolved_qty_received "received" (some q) qty_sent = some q := by
  intro now qs q
  have hok : ensure_received_requires_sent (some now) "received" = .ok () := by
    unfold ensure_received_requires_sent
    rw [if_neg]
    simp
  refine ⟨?_, hok, by simp [resolved_qty_received], rfl⟩
  unfold resolve_initial_state
  have hn : normalize_movement_status (some "received") = "received" := by
    decide
  rw [hn]
  show (if ("received" : String) = "sent" then _ else _) = _
  rw [if_neg (by decide), if_neg (by decide), if_pos rfl, hok]

/-! ## Theorems: readiness bound (C5) -/

/-- Counterexample to C5: with plan 100 and every progress stage's good
total at 200, `recompute_part_state` writes `qty_done = 200 > qty_plan`;
the derived `readyQty` is not clamped to the planned quantity. -/
theorem recompute_qty_done_exceeds_plan :
    ((recompute_part_state
        ⟨100, 0, "not_started", ["machining", "fitting", "qc"], false, none, none⟩
        [⟨"machining", "pending", none, none, none⟩,
         ⟨"fitting", "pending", none, none, none⟩,
         ⟨"qc", "pending", none, none, none⟩]
        [("machining", ⟨200, 0, 1, some 1, some 2⟩),
         ("fitting", ⟨200, 0, 1, some 3, some 4⟩),
         ("qc", ⟨200, 0, 1, some 5, some 6⟩)]
        (fun _ => none) 9).1.qty_done = 200) ∧
      ¬((recompute_part_state
        ⟨100, 0, "not_started", ["machining", "fitting", "qc"], false, none, none⟩
        [⟨"machining", "pending", none, none, none⟩,
         ⟨"fitting", "pending", none, none, none⟩,
         ⟨"qc", "pending", none, none, none⟩]
        [("machining", ⟨200, 0, 1, some 1, some 2⟩),
         ("fitting", ⟨200, 0, 1, some 3, some 4⟩),
         ("qc", ⟨200, 0, 1, some 5, some 6⟩)]
        (fun _ => none) 9).1.qty_done ≤ (100 : Int)) := by
  decide

/-- C5 as amended: the `qty_done` written by `recompute_part_state` is
never negative (the source clamps with `max(0, ready_qty)`); it is however
not bounded by `qty_plan` — when every progress stage's good total exceeds
the plan, the written `qty_done` exceeds the planned quantity. -/
theorem recompute_qty_done_nonneg :
    ∀ (part : Part) (statuses : List PartStageStatus) (totals : TotalsMap)
      (lastOp : String → Option Nat) (now : Nat),
      0 ≤ (recompute_part_state part statuses totals lastOp now).1.qty_done := by
  intro part statuses totals lastOp now
  show (0 : Int) ≤ if _ < 0 then 0 else _
  split <;> omega

end ErpMes


namespace ErpMes

/-! ## Theorems: recomputer idempotence (C4) -/

theorem fillIfNone_ne_none (d : Nat) (cur : Option Nat) :
    fillIfNone d cur ≠ none := by
  unfold fillIfNone
  split <;> simp_all

theorem fillIfNone_of_ne_none (d : Nat) {cur : Option Nat} (h : cur ≠ none) :
    fillIfNone d cur = cur := by
  unfold fillIfNone
  rw [if_neg h]

theorem fillIfNone_idem (d : Nat) (cur : Option Nat) :
    fillIfNone d (fillIfNone d cur) = fillIfNone d cur :=
  fillIfNone_of_ne_none d (fillIfNone_ne_none d cur)

theorem opIdNext_idem (lastOp : String → Option Nat) (stage : String)
    (op : Option Nat) :
    opIdNext lastOp stage (opIdNext lastOp stage op) =
      opIdNext lastOp stage op := by
  unfold opIdNext attributedNext
  by_cases hext : stage ∈ EXTERNAL_MOVEMENT_STAGES
  · simp [hext]
  · by_cases hint : stage ∈ INTERNAL_FACT_STAGES
    · cases hop : op with
      | some o => simp [hext, hint, hop]
      | none =>
        cases hl : lastOp stage with
        | some o => simp [hext, hint, hl]
        | none => simp [hext, hint, hl]
    · simp [hext, hint]

theorem updateStage_qc_reset (part : Part) (totals : TotalsMap)
    (lastOp : String → Option Nat) (now : Nat) (ss : PartStageStatus)
    (h0 : ¬ss.status = "skipped")
    (hqc : ss.stage = "qc" ∧ part.is_cooperation = true)
    (hp : normQcStatus part.cooperation_qc_status = "pending" ∧
      ¬(0 < (getTotals totals ss.stage).facts_count ∨
        0 < (getTotals totals ss.stage).processed)) :
    updateStage part totals lastOp now ss =
      { ss with status := "pending", started_at := none,
                completed_at := none, operator_id := none } := by
  unfold updateStage
  dsimp only
  rw [if_neg h0, if_pos hqc, if_pos hp]

theorem updateStage_qc_accepted (part : Part) (totals : TotalsMap)
    (lastOp : String → Option Nat) (now : Nat) (ss : PartStageStatus)
    (h0 : ¬ss.status = "skipped")
    (hqc : ss.stage = "qc" ∧ part.is_cooperation = true)
    (hp : ¬(normQcStatus part.cooperation_qc_status = "pending" ∧
      ¬(0 < (getTotals totals ss.stage).facts_count ∨
        0 < (getTotals totals ss.stage).processed)))
    (ha : normQcStatus part.cooperation_qc_status = "accepted") :
    updateStage part totals lastOp now ss =
      { ss with status := "done",
                started_at :=
                  fillIfNone ((getTotals totals ss.stage).first_at.getD now)
                    ss.started_at,
                operator_id := none,
                completed_at :=
                  some ((part.cooperation_qc_checked_at.orElse
                    fun _ => (getTotals totals ss.stage).last_at).getD now) } := by
  unfold updateStage
  dsimp only
  rw [if_neg h0, if_pos hqc, if_neg hp, if_pos ha]



theorem updateStage_qc_rejected (part : Part) (totals : TotalsMap)
    (lastOp : String → Option Nat) (now : Nat) (ss : PartStageStatus)
    (h0 : ¬ss.status = "skipped")
    (hqc : ss.stage = "qc" ∧ part.is_cooperation = true)
    (hp : ¬(normQcStatus part.cooperation_qc_status = "pending" ∧
      ¬(0 < (getTotals totals ss.stage).facts_count ∨
        0 < (getTotals totals ss.stage).processed)))
    (ha : ¬normQcStatus part.cooperation_qc_status = "accepted")
    (hj : normQcStatus part.cooperation_qc_status = "rejected") :
    updateStage part totals lastOp now ss =
      { ss with status := "in_progress",
                started_at :=
                  fillIfNone ((getTotals totals ss.stage).first_at.getD now)
                    ss.started_at,
                operator_id := none, completed_at := none } := by
  unfold updateStage
  dsimp only
  rw [if_neg h0, if_pos hqc, if_neg hp, if_neg ha, if_pos hj]

theorem updateStage_qc_done (part : Part) (totals : TotalsMap)
    (lastOp : String → Option Nat) (now : Nat) (ss : PartStageStatus)
    (h0 : ¬ss.status = "skipped")
    (hqc : ss.stage = "qc" ∧ part.is_cooperation = true)
    (hp : ¬(normQcStatus part.cooperation_qc_status = "pending" ∧
      ¬(0 < (getTotals totals ss.stage).facts_count ∨
        0 < (getTotals totals ss.stage).processed)))
    (ha : ¬normQcStatus part.cooperation_qc_status = "accepted")
    (hj : ¬normQcStatus part.cooperation_qc_status = "rejected")
    (hg : part.qty_plan ≤ (getTotals totals ss.stage).good) :
    updateStage part totals lastOp now ss =
      { ss with status := "done",
                started_at :=
                  fillIfNone ((getTotals totals ss.stage).first_at.getD now)
                    ss.started_at,
                operator_id := none,
                completed_at :=
                  fillIfNone ((getTotals totals ss.stage).last_at.getD now)
                    ss.completed_at } := by
  unfold updateStage
  dsimp only
  rw [if_neg h0, if_pos hqc, if_neg hp, if_neg ha, if_neg hj, if_pos hg]

theorem updateStage_qc_prog (part : Part) (totals : TotalsMap)
    (lastOp : String → Option Nat) (now : Nat) (ss : PartStageStatus)
    (h0 : ¬ss.status = "skipped")
    (hqc : ss.stage = "qc" ∧ part.is_cooperation = true)
    (hp : ¬(normQcStatus part.cooperation_qc_status = "pending" ∧
      ¬(0 < (getTotals totals ss.stage).facts_count ∨
        0 < (getTotals totals ss.stage).processed)))
    (ha : ¬normQcStatus part.cooperation_qc_status = "accepted")
    (hj : ¬normQcStatus part.cooperation_qc_status = "rejected")
    (hg : ¬part.qty_plan ≤ (getTotals totals ss.stage).good) :
    updateStage part totals lastOp now ss =
      { ss with status := "in_progress",
                started_at :=
                  fillIfNone ((getTotals totals ss.stage).first_at.getD now)
                    ss.started_at,
                operator_id := none, completed_at := none } := by
  unfold updateStage
  dsimp only
  rw [if_neg h0, if_pos hqc, if_neg hp, if_neg ha, if_neg hj, if_neg hg]

theorem updateStage_reset (part : Part) (totals : TotalsMap)
    (lastOp : String → Option Nat) (now : Nat) (ss : PartStageStatus)
    (h0 : ¬ss.status = "skipped")
    (hqc : ¬(ss.stage = "qc" ∧ part.is_cooperation = true))
    (hna : ¬(0 < (getTotals totals ss.stage).facts_count ∨
      0 < (getTotals totals ss.stage).processed)) :
    updateStage part totals lastOp now ss =
      { ss with status := "pending", started_at := none,
                completed_at := none, operator_id := none } := by
  unfold updateStage
  dsimp only
  rw [if_neg h0, if_neg hqc, if_pos hna]

theorem updateStage_logistics (part : Part) (totals : TotalsMap)
    (lastOp : String → Option Nat) (now : Nat) (ss : PartStageStatus)
    (h0 : ¬ss.status = "skipped")
    (hqc : ¬(ss.stage = "qc" ∧ part.is_cooperation = true))
    (hact : 0 < (getTotals totals ss.stage).facts_count ∨
      0 < (getTotals totals ss.stage).processed)
    (hlog : ss.stage = "logistics") :
    updateStage part totals lastOp now ss =
      { ss with status := "in_progress",
                started_at :=
                  fillIfNone ((getTotals totals ss.stage).first_at.getD now)
                    ss.started_at,
                operator_id := opIdNext lastOp ss.stage ss.operator_id,
                completed_at := none } := by
  unfold updateStage
  dsimp only
  rw [if_neg h0, if_neg hqc, if_neg (not_not_intro hact), if_pos hlog]

theorem updateStage_done (part : Part) (totals : TotalsMap)
    (lastOp : String → Option Nat) (now : Nat) (ss : PartStageStatus)
    (h0 : ¬ss.status = "skipped")
    (hqc : ¬(ss.stage = "qc" ∧ part.is_cooperation = true))
    (hact : 0 < (getTotals totals ss.stage).facts_count ∨
      0 < (getTotals totals ss.stage).processed)
    (hlog : ¬ss.stage = "logistics")
    (hg : part.qty_plan ≤ (getTotals totals ss.stage).good) :
    updateStage part totals lastOp now ss =
      { ss with status := "done",
                started_at :=
                  fillIfNone ((getTotals totals ss.stage).first_at.getD now)
                    ss.started_at,
                operator_id := opIdNext lastOp ss.stage ss.operator_id,
                completed_at :=
                  fillIfNone ((getTotals totals ss.stage).last_at.getD now)
                    ss.completed_at } := by
  unfold updateStage
  dsimp only
  rw [if_neg h0, if_neg hqc, if_neg (not_not_intro hact), if_neg hlog, if_pos hg]

theorem updateStage_prog (part : Part) (totals : TotalsMap)
    (lastOp : String → Option Nat) (now : Nat) (ss : PartStageStatus)
    (h0 : ¬ss.status = "skipped")
    (hqc : ¬(ss.stage = "qc" ∧ part.is_cooperation = true))
    (hact : 0 < (getTotals totals ss.stage).facts_count ∨
      0 < (getTotals totals ss.stage).processed)
    (hlog : ¬ss.stage = "logistics")
    (hg : ¬part.qty_plan ≤ (getTotals totals ss.stage).good) :
    updateStage part totals lastOp now ss =
      { ss with status := "in_progress",
                started_at :=
                  fillIfNone ((getTotals totals ss.stage).first_at.getD now)
                    ss.started_at,
                operator_id := opIdNext lastOp ss.stage ss.operator_id,
                completed_at := none } := by
  unfold updateStage
  dsimp only
  rw [if_neg h0, if_neg hqc, if_neg (not_not_intro hact), if_neg hlog, if_neg hg]



theorem updateStage_idem (part : Part) (totals : TotalsMap)
    (lastOp : String → Option Nat) (now : Nat) (ss : PartStageStatus) :
    updateStage part totals lastOp now (updateStage part totals lastOp now ss) =
      updateStage part totals lastOp now ss := by
  by_cases h0 : ss.status = "skipped"
  · have hr : updateStage part totals lastOp now ss = ss := by
      unfold updateStage
      rw [if_pos h0]
    rw [hr]
    exact hr
  · by_cases hqc : ss.stage = "qc" ∧ part.is_cooperation = true
    · by_cases hp : normQcStatus part.cooperation_qc_status = "pending" ∧
          ¬(0 < (getTotals totals ss.stage).facts_count ∨
            0 < (getTotals totals ss.stage).processed)
      · rw [updateStage_qc_reset part totals lastOp now ss h0 hqc hp]
        refine updateStage_qc_reset part totals lastOp now _ ?_ hqc hp
        simp
      · by_cases ha : normQcStatus part.cooperation_qc_status = "accepted"
        · rw [updateStage_qc_accepted part totals lastOp now ss h0 hqc hp ha]
          refine (updateStage_qc_accepted part totals lastOp now _
            ?_ ?_ ?_ ?_).trans ?_
          · simp
          · exact hqc
          · exact hp
          · exact ha
          · dsimp only
            simp only [fillIfNone_idem]
        · by_cases hj : normQcStatus part.cooperation_qc_status = "rejected"
          · rw [updateStage_qc_rejected part totals lastOp now ss h0 hqc hp ha hj]
            refine (updateStage_qc_rejected part totals lastOp now _
              ?_ ?_ ?_ ?_ ?_).trans ?_
            · simp
            · exact hqc
            · exact hp
            · exact ha
            · exact hj
            · dsimp only
              simp only [fillIfNone_idem]
          · by_cases hg : part.qty_plan ≤ (getTotals totals ss.stage).good
            · rw [updateStage_qc_done part totals lastOp now ss h0 hqc hp ha hj hg]
              refine (updateStage_qc_done part totals lastOp now _
                ?_ ?_ ?_ ?_ ?_ ?_).trans ?_
              · simp
              · exact hqc
              · exact hp
              · exact ha
              · exact hj
              · exact hg
              · dsimp only
                simp only [fillIfNone_idem]
            · rw [updateStage_qc_prog part totals lastOp now ss h0 hqc hp ha hj hg]
              refine (updateStage_qc_prog part totals lastOp now _
                ?_ ?_ ?_ ?_ ?_ ?_).trans ?_
              · simp
              · exact hqc
              · exact hp
              · exact ha
              · exact hj
              · exact hg
              · dsimp only
                simp only [fillIfNone_idem]
    · by_cases hact : 0 < (getTotals totals ss.stage).facts_count ∨
          0 < (getTotals totals ss.stage).processed
      · by_cases hlog : ss.stage = "logistics"
        · rw [updateStage_logistics part totals lastOp now ss h0 hqc hact hlog]
          refine (updateStage_logistics part totals lastOp now _
            ?_ ?_ ?_ ?_).trans ?_
          · simp
          · exact hqc
          · exact hact
          · exact hlog
          · dsimp only
            simp only [fillIfNone_idem, opIdNext_idem]
        · by_cases hg : part.qty_plan ≤ (getTotals totals ss.stage).good
          · rw [updateStage_done part totals lastOp now ss h0 hqc hact hlog hg]
            refine (updateStage_done part totals lastOp now _
              ?_ ?_ ?_ ?_ ?_).trans ?_
            · simp
            · exact hqc
            · exact hact
            · exact hlog
            · exact hg
            · dsimp only
              simp only [fillIfNone_idem, opIdNext_idem]
          · rw [updateStage_prog part totals lastOp now ss h0 hqc hact hlog hg]
            refine (updateStage_prog part totals lastOp now _
              ?_ ?_ ?_ ?_ ?_).trans ?_
            · simp
            · exact hqc
            · exact hact
            · exact hlog
            · exact hg
            · dsimp only
              simp only [fillIfNone_idem, opIdNext_idem]
      · rw [updateStage_reset part totals lastOp now ss h0 hqc hact]
        refine updateStage_reset part totals lastOp now _ ?_ hqc hact
        simp



theorem updateStage_part_qty_status (part : Part) (d : Int) (s : String)
    (totals : TotalsMap) (lastOp : String → Option Nat) (now : Nat) :
    updateStage { part with qty_done := d, status := s } totals lastOp now =
      updateStage part totals lastOp now := rfl

/-- C4: `recompute_part_state` is idempotent: run on its own output with
the same totals, operator query and clock, the second call leaves every
stage status (status, `started_at`/`completed_at`, operator attribution),
`qty_done` and the overall part status exactly as the first call set them,
and returns the same per-stage totals. -/
theorem recompute_part_state_idempotent (part : Part)
    (statuses : List PartStageStatus) (totals : TotalsMap)
    (lastOp : String → Option Nat) (now : Nat) :
    recompute_part_state (recompute_part_state part statuses totals lastOp now).1
        (recompute_part_state part statuses totals lastOp now).2.1
        totals lastOp now =
      recompute_part_state part statuses totals lastOp now := by
  have hmap : (statuses.map (updateStage part totals lastOp now)).map
      (updateStage part totals lastOp now) =
      statuses.map (updateStage part totals lastOp now) := by
    rw [List.map_map]
    simp only [Function.comp_def]
    exact List.map_congr_left fun a _ => updateStage_idem part totals lastOp now a
  unfold recompute_part_state
  dsimp only
  rw [updateStage_part_qty_status, hmap]

end ErpMes


namespace ErpMes

/-! ## Theorems: flow invariant validator (C2) -/

theorem validateFlowGo_eq_none_iff (part : Part) (totals : TotalsMap) :
    ∀ L : List String,
      validateFlowGo part totals L = none ↔
        ∀ stage ∈ L, stage ≠ "machining" → stage ≠ "logistics" →
          stage_prerequisites part stage ≠ [] →
          (getTotals totals stage).processed ≤
            listMin ((stage_prerequisites part stage).map
              fun s => (getTotals totals s).good) := by
  intro L
  induction L with
  | nil => simp [validateFlowGo]
  | cons stage rest ih =>
    unfold validateFlowGo
    dsimp only
    split_ifs with hml hpre hlt
    · rw [ih]
      constructor
      · intro h s hs hm hl hp
        rcases List.mem_cons.mp hs with rfl | hs'
        · rcases hml with rfl | rfl
          · exact absurd rfl hm
          · exact absurd rfl hl
        · exact h s hs' hm hl hp
      · intro h s hs hm hl hp
        exact h s (List.mem_cons_of_mem _ hs) hm hl hp
    · rw [ih]
      constructor
      · intro h s hs hm hl hp
        rcases List.mem_cons.mp hs with rfl | hs'
        · exact absurd hpre hp
        · exact h s hs' hm hl hp
      · intro h s hs hm hl hp
        exact h s (List.mem_cons_of_mem _ hs) hm hl hp
    · constructor
      · intro h
        exact absurd h (by simp)
      · intro h
        obtain ⟨hm, hl⟩ := not_or.mp hml
        have hcontra := h stage (List.mem_cons_self _ _) hm hl hpre
        omega
    · rw [ih]
      constructor
      · intro h s hs hm hl hp
        rcases List.mem_cons.mp hs with rfl | hs'
        · omega
        · exact h s hs' hm hl hp
      · intro h s hs hm hl hp
        exact h s (List.mem_cons_of_mem _ hs) hm hl hp



theorem validateFlowGo_eq_some (part : Part) (totals : TotalsMap) :
    ∀ (L : List String) (v : FlowViolation),
      validateFlowGo part totals L = some v →
        v.stage ∈ L ∧ v.stage ≠ "machining" ∧ v.stage ≠ "logistics" ∧
        v.prereq = stage_prerequisites part v.stage ∧ v.prereq ≠ [] ∧
        v.processed = (getTotals totals v.stage).processed ∧
        v.available = listMin (v.prereq.map fun s => (getTotals totals s).good) ∧
        v.available < v.processed := by
  intro L
  induction L with
  | nil => simp [validateFlowGo]
  | cons stage rest ih =>
    intro v hv
    unfold validateFlowGo at hv
    dsimp only at hv
    split_ifs at hv with hml hpre hlt
    · obtain ⟨h1, h⟩ := ih v hv
      exact ⟨List.mem_cons_of_mem _ h1, h⟩
    · obtain ⟨h1, h⟩ := ih v hv
      exact ⟨List.mem_cons_of_mem _ h1, h⟩
    · obtain rfl := Option.some.inj hv
      obtain ⟨hm, hl⟩ := not_or.mp hml
      exact ⟨List.mem_cons_self _ _, hm, hl, rfl, hpre, rfl, rfl, hlt⟩
    · obtain ⟨h1, h⟩ := ih v hv
      exact ⟨List.mem_cons_of_mem _ h1, h⟩

/-- C2: `validate_stage_flow(part, totals)` returns no violation exactly
when every stage in `required_stages` other than `machining`/`logistics`
with a non-empty prerequisite list has `processed = good + scrap` within
the MIN of its prerequisites' good totals; a returned violation carries
the offending stage, the processed amount, its prerequisite stages and the
available amount.  The function is pure: being a plain function of
`(part, totals)` in this embedding, it mutates neither. -/
theorem validate_stage_flow_spec :
    ∀ (part : Part) (totals : TotalsMap),
      (validate_stage_flow part totals = none ↔
        ∀ stage ∈ part.required_stages, stage ≠ "machining" →
          stage ≠ "logistics" → stage_prerequisites part stage ≠ [] →
          (getTotals totals stage).processed ≤
            listMin ((stage_prerequisites part stage).map
              fun s => (getTotals totals s).good)) ∧
      ∀ v, validate_stage_flow part totals = some v →
        v.stage ∈ part.required_stages ∧ v.stage ≠ "machining" ∧
        v.stage ≠ "logistics" ∧ v.prereq = stage_prerequisites part v.stage ∧
        v.prereq ≠ [] ∧ v.processed = (getTotals totals v.stage).processed ∧
        v.available = listMin (v.prereq.map fun s => (getTotals totals s).good) ∧
        v.available < v.processed := by
  intro part totals
  exact ⟨validateFlowGo_eq_none_iff part totals part.required_stages,
    fun v => validateFlowGo_eq_some part totals part.required_stages v⟩

/-- Witness for C2: the spec's example part (plan 100, stages
machining/fitting/qc, machining and fitting at 60 good, qc at 110
processed) — the validator returns the violation naming `qc`, processed
110, prerequisite `fitting`, available 60. -/
theorem validate_stage_flow_spec_witness :
    validate_stage_flow
        ⟨100, 0, "in_progress", ["machining", "fitting", "qc"], false, none, none⟩
        [("machining", ⟨60, 0, 1, some 1, some 2⟩),
         ("fitting", ⟨60, 0, 1, some 3, some 4⟩),
         ("qc", ⟨110, 0, 2, some 5, some 6⟩)] =
      some ⟨"qc", 110, ["fitting"], 60⟩ ∧
      (⟨"qc", 110, ["fitting"], 60⟩ : FlowViolation).available <
        (⟨"qc", 110, ["fitting"], 60⟩ : FlowViolation).processed :=
  ⟨by decide,
    ((validate_stage_flow_spec
        ⟨100, 0, "in_progress", ["machining", "fitting", "qc"], false, none, none⟩
        [("machining", ⟨60, 0, 1, some 1, some 2⟩),
         ("fitting", ⟨60, 0, 1, some 3, some 4⟩),
         ("qc", ⟨110, 0, 2, some 5, some 6⟩)]).2
      ⟨"qc", 110, ["fitting"], 60⟩ (by decide)).2.2.2.2.2.2.2⟩

end ErpMes


namespace ErpMes

/-! ## Theorems: bottleneck readiness (C1) -/

theorem foldl_min_le_init : ∀ (xs : List Int) (a : Int), xs.foldl min a ≤ a := by
  intro xs
  induction xs with
  | nil => intro a; simp
  | cons x xs ih =>
    intro a
    simp only [List.foldl_cons]
    exact le_trans (ih (min a x)) (min_le_left a x)

theorem foldl_min_le_mem :
    ∀ (xs : List Int) (a y : Int), y ∈ xs → xs.foldl min a ≤ y := by
  intro xs
  induction xs with
  | nil => intro a y hy; simp at hy
  | cons x xs ih =>
    intro a y hy
    simp only [List.foldl_cons]
    rcases List.mem_cons.mp hy with rfl | hmem
    · exact le_trans (foldl_min_le_init xs (min a y)) (min_le_right a y)
    · exact ih (min a x) y hmem

theorem le_foldl_min :
    ∀ (xs : List Int) (a c : Int), c ≤ a → (∀ y ∈ xs, c ≤ y) →
      c ≤ xs.foldl min a := by
  intro xs
  induction xs with
  | nil => intro a c hc _; simpa using hc
  | cons x xs ih =>
    intro a c hc hall
    simp only [List.foldl_cons]
    exact ih (min a x) c (le_min hc (hall x (List.mem_cons_self _ _)))
      fun y hy => hall y (List.mem_cons_of_mem _ hy)

theorem foldl_min_mem :
    ∀ (xs : List Int) (a : Int), xs.foldl min a = a ∨ xs.foldl min a ∈ xs := by
  intro xs
  induction xs with
  | nil => intro a; simp
  | cons x xs ih =>
    intro a
    simp only [List.foldl_cons]
    rcases ih (min a x) with h | h
    · rcases le_total a x with hax | hxa
      · rw [min_eq_left hax] at h ⊢
        exact .inl h
      · rw [min_eq_right hxa] at h ⊢
        rw [h]
        exact .inr (List.mem_cons_self _ _)
    · exact .inr (List.mem_cons_of_mem _ h)

theorem listMin_le {l : List Int} {y : Int} (hy : y ∈ l) : listMin l ≤ y := by
  cases l with
  | nil => simp at hy
  | cons x xs =>
    show xs.foldl min x ≤ y
    rcases List.mem_cons.mp hy with rfl | hmem
    · exact foldl_min_le_init xs y
    · exact foldl_min_le_mem xs x y hmem

theorem listMin_mem {l : List Int} (h : l ≠ []) : listMin l ∈ l := by
  cases l with
  | nil => exact absurd rfl h
  | cons x xs =>
    show xs.foldl min x ∈ x :: xs
    rcases foldl_min_mem xs x with hm | hm
    · rw [hm]
      exact List.mem_cons_self _ _
    · exact List.mem_cons_of_mem _ hm

theorem le_listMin {l : List Int} {c : Int} (h : l ≠ []) (hc : ∀ y ∈ l, c ≤ y) :
    c ≤ listMin l := by
  cases l with
  | nil => exact absurd rfl h
  | cons x xs =>
    show c ≤ xs.foldl min x
    exact le_foldl_min xs x c (hc x (List.mem_cons_self _ _))
      fun y hy => hc y (List.mem_cons_of_mem _ hy)



theorem updateStage_stage (part : Part) (totals : TotalsMap)
    (lastOp : String → Option Nat) (now : Nat) (ss : PartStageStatus) :
    (updateStage part totals lastOp now ss).stage = ss.stage := by
  unfold updateStage
  dsimp only
  split_ifs <;> rfl

theorem updateStage_skipped (part : Part) (totals : TotalsMap)
    (lastOp : String → Option Nat) (now : Nat) (ss : PartStageStatus) :
    ((updateStage part totals lastOp now ss).status = "skipped" ↔
      ss.status = "skipped") := by
  unfold updateStage
  dsimp only
  split_ifs with h0 <;> simp_all

theorem progressStagesPresent_map (part : Part) (totals : TotalsMap)
    (lastOp : String → Option Nat) (now : Nat) :
    ∀ statuses : List PartStageStatus,
      progressStagesPresent (statuses.map (updateStage part totals lastOp now)) =
        progressStagesPresent statuses := by
  intro statuses
  induction statuses with
  | nil => rfl
  | cons x xs ih =>
    unfold progressStagesPresent at ih ⊢
    simp only [List.map_cons, List.filter_cons]
    have hstage := updateStage_stage part totals lastOp now x
    have hskip := updateStage_skipped part totals lastOp now x
    have hcond :
        (decide ¬(updateStage part totals lastOp now x).status = "skipped" &&
          PROGRESS_STAGES.contains (updateStage part totals lastOp now x).stage) =
        (decide ¬x.status = "skipped" && PROGRESS_STAGES.contains x.stage) := by
      rw [hstage]
      congr 1
      exact decide_eq_decide.mpr (not_congr hskip)
    rw [hcond]
    by_cases hpx :
        (decide ¬x.status = "skipped" && PROGRESS_STAGES.contains x.stage) = true
    · rw [if_pos hpx, if_pos hpx]
      simp only [List.map_cons, hstage, ih]
    · rw [if_neg hpx, if_neg hpx]
      exact ih

theorem getTotals_nonneg {totals : TotalsMap}
    (h : ∀ p ∈ totals, 0 ≤ p.2.good) (stage : String) :
    0 ≤ (getTotals totals stage).good := by
  unfold getTotals
  cases hf : totals.find? (fun p => p.1 = stage) with
  | none => simp
  | some p => exact h p (List.mem_of_find?_eq_some hf)



/-- C1: after `recompute_part_state`, the written `qty_done` equals the
MIN of the good totals over exactly the stage-status rows whose status is
not `skipped` and whose stage is in `PROGRESS_STAGES` (administrative
stages such as `logistics` are excluded), and equals 0 when no such row
exists; moreover, raising the good total of a stage that is not the
bottleneck minimum leaves `qty_done` unchanged. -/
theorem recompute_ready_qty_spec :
    ∀ (part : Part) (statuses : List PartStageStatus) (totals totals2 : TotalsMap)
      (lastOp : String → Option Nat) (now : Nat) (s : String),
      (∀ p ∈ totals, 0 ≤ p.2.good) →
      ((recompute_part_state part statuses totals lastOp now).1.qty_done =
        (if progressStagesPresent statuses = [] then 0
         else listMin ((progressStagesPresent statuses).map
            fun st => (getTotals totals st).good))) ∧
      ((∀ st ∈ progressStagesPresent statuses, st ≠ s →
          (getTotals totals2 st).good = (getTotals totals st).good) →
        (getTotals totals s).good ≤ (getTotals totals2 s).good →
        (∀ p ∈ totals2, 0 ≤ p.2.good) →
        (progressStagesPresent statuses ≠ [] →
          listMin ((progressStagesPresent statuses).map
            fun st => (getTotals totals st).good) < (getTotals totals s).good) →
        (recompute_part_state part statuses totals2 lastOp now).1.qty_done =
          (recompute_part_state part statuses totals lastOp now).1.qty_done) := by
  intro part statuses totals totals2 lastOp now s hnn
  have hq1 : (recompute_part_state part statuses totals lastOp now).1.qty_done =
      (if progressStagesPresent statuses = [] then 0
       else listMin ((progressStagesPresent statuses).map
          fun st => (getTotals totals st).good)) := by
    unfold recompute_part_state
    dsimp only
    rw [progressStagesPresent_map part totals lastOp now statuses]
    by_cases hpe : progressStagesPresent statuses = []
    · rw [if_pos hpe]
      simp
    · rw [if_neg hpe]
      have hm0 : 0 ≤ listMin ((progressStagesPresent statuses).map
          fun st => (getTotals totals st).good) := by
        refine le_listMin ?_ ?_
        · intro hmap
          exact hpe (List.map_eq_nil_iff.mp hmap)
        · intro y hy
          obtain ⟨st, _, rfl⟩ := List.mem_map.mp hy
          exact getTotals_nonneg hnn st
      rw [if_neg (by omega)]
  refine ⟨hq1, ?_⟩
  intro heq hle hnn2 hmin
  have hq2 : (recompute_part_state part statuses totals2 lastOp now).1.qty_done =
      (if progressStagesPresent statuses = [] then 0
       else listMin ((progressStagesPresent statuses).map
          fun st => (getTotals totals2 st).good)) := by
    unfold recompute_part_state
    dsimp only
    rw [progressStagesPresent_map part totals2 lastOp now statuses]
    by_cases hpe : progressStagesPresent statuses = []
    · rw [if_pos hpe]
      simp
    · rw [if_neg hpe]
      have hm0 : 0 ≤ listMin ((progressStagesPresent statuses).map
          fun st => (getTotals totals2 st).good) := by
        refine le_listMin ?_ ?_
        · intro hmap
          exact hpe (List.map_eq_nil_iff.mp hmap)
        · intro y hy
          obtain ⟨st, _, rfl⟩ := List.mem_map.mp hy
          exact getTotals_nonneg hnn2 st
      rw [if_neg (by omega)]
  rw [hq1, hq2]
  by_cases hpe : progressStagesPresent statuses = []
  · simp only [if_pos hpe]
  · simp only [if_neg hpe]
    have hmapne : ((progressStagesPresent statuses).map
        fun st => (getTotals totals st).good) ≠ [] := by
      intro hmap
      exact hpe (List.map_eq_nil_iff.mp hmap)
    have hmapne2 : ((progressStagesPresent statuses).map
        fun st => (getTotals totals2 st).good) ≠ [] := by
      intro hmap
      exact hpe (List.map_eq_nil_iff.mp hmap)
    apply le_antisymm
    · -- m2 ≤ m1: the old minimum is attained away from s and unchanged
      obtain ⟨st1, hst1, heq1⟩ := List.mem_map.mp (listMin_mem hmapne)
      have hst1ne : st1 ≠ s := by
        intro hcontra
        subst hcontra
        have := hmin hpe
        omega
      have : (getTotals totals2 st1).good =
          listMin ((progressStagesPresent statuses).map
            fun st => (getTotals totals st).good) := by
        rw [heq st1 hst1 hst1ne, heq1]
      calc listMin ((progressStagesPresent statuses).map
              fun st => (getTotals totals2 st).good)
          ≤ (getTotals totals2 st1).good :=
            listMin_le (List.mem_map.mpr ⟨st1, hst1, rfl⟩)
        _ = _ := this
    · -- m1 ≤ m2: the new minimum is attained somewhere, where good only grew
      obtain ⟨st2, hst2, heq2⟩ := List.mem_map.mp (listMin_mem hmapne2)
      have hgrow : (getTotals totals st2).good ≤ (getTotals totals2 st2).good := by
        by_cases hcase : st2 = s
        · subst hcase
          exact hle
        · rw [heq st2 hst2 hcase]
      calc listMin ((progressStagesPresent statuses).map
              fun st => (getTotals totals st).good)
          ≤ (getTotals totals st2).good :=
            listMin_le (List.mem_map.mpr ⟨st2, hst2, rfl⟩)
        _ ≤ (getTotals totals2 st2).good := hgrow
        _ = _ := heq2



/-- Witness for C1: plan 100, goods machining 80 / fitting 70 / qc 60 —
`qty_done` is the bottleneck 60, and raising the non-bottleneck machining
good to 500 leaves it at 60, by instantiating the theorem there. -/
theorem recompute_ready_qty_spec_witness :
    (recompute_part_state
        ⟨100, 0, "not_started", ["machining", "fitting", "qc"], false, none, none⟩
        [⟨"machining", "pending", none, none, none⟩,
         ⟨"fitting", "pending", none, none, none⟩,
         ⟨"qc", "pending", none, none, none⟩]
        [("machining", ⟨500, 0, 1, some 1, some 2⟩),
         ("fitting", ⟨70, 0, 1, some 3, some 4⟩),
         ("qc", ⟨60, 0, 1, some 5, some 6⟩)]
        (fun _ => none) 9).1.qty_done =
      (recompute_part_state
        ⟨100, 0, "not_started", ["machining", "fitting", "qc"], false, none, none⟩
        [⟨"machining", "pending", none, none, none⟩,
         ⟨"fitting", "pending", none, none, none⟩,
         ⟨"qc", "pending", none, none, none⟩]
        [("machining", ⟨80, 0, 1, some 1, some 2⟩),
         ("fitting", ⟨70, 0, 1, some 3, some 4⟩),
         ("qc", ⟨60, 0, 1, some 5, some 6⟩)]
        (fun _ => none) 9).1.qty_done ∧
      (recompute_part_state
        ⟨100, 0, "not_started", ["machining", "fitting", "qc"], false, none, none⟩
        [⟨"machining", "pending", none, none, none⟩,
         ⟨"fitting", "pending", none, none, none⟩,
         ⟨"qc", "pending", none, none, none⟩]
        [("machining", ⟨80, 0, 1, some 1, some 2⟩),
         ("fitting", ⟨70, 0, 1, some 3, some 4⟩),
         ("qc", ⟨60, 0, 1, some 5, some 6⟩)]
        (fun _ => none) 9).1.qty_done = 60 :=
  ⟨(recompute_ready_qty_spec
      ⟨100, 0, "not_started", ["machining", "fitting", "qc"], false, none, none⟩
      [⟨"machining", "pending", none, none, none⟩,
       ⟨"fitting", "pending", none, none, none⟩,
       ⟨"qc", "pending", none, none, none⟩]
      [("machining", ⟨80, 0, 1, some 1, some 2⟩),
       ("fitting", ⟨70, 0, 1, some 3, some 4⟩),
       ("qc", ⟨60, 0, 1, some 5, some 6⟩)]
      [("machining", ⟨500, 0, 1, some 1, some 2⟩),
       ("fitting", ⟨70, 0, 1, some 3, some 4⟩),
       ("qc", ⟨60, 0, 1, some 5, some 6⟩)]
      (fun _ => none) 9 "machining" (by decide)).2
    (by decide) (by decide) (by decide) (by decide),
   by decide⟩

end ErpMes
